import Mathlib

/-!
Verification of the `legifrance-rs` ingestion-and-search pipeline.

The Rust sources are shallowly embedded: pure functions become Lean
functions, effectful operations become explicit state passing over a
model of the filesystem (an association list from paths to contents),
fallible calls return a `RunResult` that distinguishes the three ways a
Rust computation can end (`Ok`, `Err`, and a panic).  External
libraries (chrono, regex, quick-xml, tantivy collectors) are modelled
just as far as the repository code exercises them, with the modelling
choices recorded in doc comments.
-/

/-- Outcome of a fallible Rust computation: `ok` for `Ok`, `err` for a
propagated `Err`, and `panicked` for a panic (`expect`/`panic!`). -/
inductive RunResult (α : Type) where
  | ok (a : α)
  | err (msg : String)
  | panicked (msg : String)
deriving DecidableEq, Repr

/-- Rust `Result::map`-like action on the `ok` payload; `Err` and panics
propagate unchanged. -/
def RunResult.map {α β : Type} (f : α → β) : RunResult α → RunResult β
  | .ok a => .ok (f a)
  | .err m => .err m
  | .panicked m => .panicked m

/-- Whether the computation finished with `Ok`. -/
def RunResult.isOk {α : Type} : RunResult α → Bool
  | .ok _ => true
  | _ => false

/-- A calendar date, as produced by `chrono::NaiveDate` in the source. -/
structure Date where
  year : Nat
  month : Nat
  day : Nat
deriving DecidableEq, Repr

/-- Gregorian leap-year test (as in chrono). -/
def isLeapYear (y : Nat) : Bool :=
  (y % 4 == 0 && y % 100 != 0) || y % 400 == 0

/-- Number of days of month `m` of year `y` (months are 1-based). -/
def daysInMonth (y m : Nat) : Nat :=
  if m = 2 then (if isLeapYear y then 29 else 28)
  else if m = 4 || m = 6 || m = 9 || m = 11 then 30
  else 31

/-- Numeric value of a list of decimal digit characters. -/
def digitsToNat (l : List Char) : Nat :=
  l.foldl (fun a c => a * 10 + (c.toNat - 48)) 0

/-- Model of `chrono::NaiveDate::parse_from_str(s, "%Y%m%d")`: with the
format's three adjacent numeric fields, chrono reads a fixed-width
4-digit year, a fixed-width 2-digit month and a 1- or 2-digit day, and
rejects trailing input, then validates the calendar date. -/
def parseYYYYMMDD (s : String) : Option Date :=
  let cs := s.data
  if cs.length < 7 || 8 < cs.length || !cs.all Char.isDigit then none
  else
    let y := digitsToNat (cs.take 4)
    let m := digitsToNat ((cs.drop 4).take 2)
    let d := digitsToNat (cs.drop 6)
    if 1 ≤ m && m ≤ 12 && 1 ≤ d && d ≤ daysInMonth y m then some ⟨y, m, d⟩
    else none

/-- Model of Rust `str::split(sep)` collected into a vector: the (always
nonempty) list of separator-free groups, with empty groups kept. -/
def splitChar (sep : Char) : List Char → List (List Char)
  | [] => [[]]
  | c :: rest =>
    if c = sep then [] :: splitChar sep rest
    else
      match splitChar sep rest with
      | [] => [[c]]
      | g :: gs => (c :: g) :: gs

/-- Rust `extract_date_from_tarball_name` (src/dumps/tarballs.rs): takes the
part of the name after the last `_`, then before the first `-`, and
parses it as `%Y%m%d`.  The two `ok_or_else` error branches of the
source are kept (they are unreachable, `split` never yields an empty
iterator), and the final `.expect` makes a parse failure a panic. -/
def extract_date_from_tarball_name (name : String) : RunResult Date :=
  match (splitChar '_' name.data).getLast? with
  | none => .err "Failed to extract date part from tarball name"
  | some lastSeg =>
    match (splitChar '-' lastSeg).head? with
    | none => .err "Failed to extract date part from tarball name"
    | some datePart =>
      match parseYYYYMMDD (String.mk datePart) with
      | some d => .ok d
      | none => .panicked "Failed to parse date from tarball name"

/-- The date segment as the specification words it: the segment
preceding the first `-` after the last `_` in the name. -/
def specDateSegment (name : String) : String :=
  String.mk (((name.data.reverse.takeWhile (fun c => c != '_')).reverse).takeWhile
    (fun c => c != '-'))

example : parseYYYYMMDD "20231125" = some ⟨2023, 11, 25⟩ := by decide
example : specDateSegment "CASS_20231125-130812.tar.gz" = "20231125" := by decide
example : extract_date_from_tarball_name "CASS_20231125-130812.tar.gz"
    = .ok ⟨2023, 11, 25⟩ := by decide

theorem splitChar_ne_nil (sep : Char) (l : List Char) : splitChar sep l ≠ [] := by
  cases l with
  | nil => simp [splitChar]
  | cons c rest =>
    simp only [splitChar]
    split
    · simp
    · split <;> simp

theorem splitChar_head? (sep : Char) (l : List Char) :
    (splitChar sep l).head? = some (l.takeWhile (fun c => c != sep)) := by
  induction l with
  | nil => simp [splitChar]
  | cons c rest ih =>
    by_cases h : c = sep
    · subst h
      simp [splitChar, List.takeWhile_cons]
    · simp only [splitChar, if_neg h]
      cases hs : splitChar sep rest with
      | nil => exact absurd hs (splitChar_ne_nil sep rest)
      | cons g gs =>
        rw [hs] at ih
        simp only [List.head?_cons, Option.some.injEq] at ih
        simp [List.takeWhile_cons, bne_iff_ne, h, ih]

theorem takeWhile_append_all {α : Type} (p : α → Bool) (l1 l2 : List α) :
    (l1 ++ l2).takeWhile p
      = if l1.all p then l1 ++ l2.takeWhile p else l1.takeWhile p := by
  induction l1 with
  | nil => simp
  | cons a l ih =>
    by_cases h : p a
    · simp only [List.cons_append, List.takeWhile_cons, h, if_true, List.all_cons,
        Bool.true_and, ih]
      by_cases h2 : l.all p <;> simp [h2]
    · simp [List.takeWhile_cons, h, List.all_cons]

theorem splitChar_of_all (sep : Char) (l : List Char)
    (h : ∀ x ∈ l, x ≠ sep) : splitChar sep l = [l] := by
  induction l with
  | nil => rfl
  | cons c rest ih =>
    have hc : c ≠ sep := h c (by simp)
    have hrest : splitChar sep rest = [rest] := ih (fun x hx => h x (by simp [hx]))
    simp [splitChar, hc, hrest]

theorem splitChar_length_of_mem (sep : Char) (l : List Char)
    (h : sep ∈ l) : 2 ≤ (splitChar sep l).length := by
  induction l with
  | nil => simp at h
  | cons c rest ih =>
    by_cases hc : c = sep
    · subst hc
      have := splitChar_ne_nil c rest
      simp only [splitChar, if_pos rfl, List.length_cons]
      cases hs : splitChar c rest with
      | nil => exact absurd hs this
      | cons g gs => simp
    · have hr : sep ∈ rest := by
        rcases List.mem_cons.mp h with h1 | h1
        · exact absurd h1.symm hc
        · exact h1
      have h2 := ih hr
      simp only [splitChar, if_neg hc]
      cases hs : splitChar sep rest with
      | nil => exact absurd hs (splitChar_ne_nil sep rest)
      | cons g gs =>
        rw [hs] at h2
        simpa using h2

theorem splitChar_cons_self (sep : Char) (rest : List Char) :
    splitChar sep (sep :: rest) = [] :: splitChar sep rest := by
  simp [splitChar]

theorem splitChar_cons_ne {sep c : Char} {rest : List Char} {g : List Char}
    {gs : List (List Char)} (h : c ≠ sep) (hs : splitChar sep rest = g :: gs) :
    splitChar sep (c :: rest) = (c :: g) :: gs := by
  simp [splitChar, h, hs]

theorem splitChar_getLast? (sep : Char) (l : List Char) :
    (splitChar sep l).getLast?
      = some ((l.reverse.takeWhile (fun c => c != sep)).reverse) := by
  induction l with
  | nil => simp [splitChar]
  | cons c rest ih =>
    have hrw : (c :: rest).reverse = rest.reverse ++ [c] := by simp
    by_cases hall : ∀ x ∈ rest, x ≠ sep
    · have hba : rest.reverse.all (fun c => c != sep) = true := by
        rw [List.all_reverse]
        simp only [List.all_eq_true, bne_iff_ne]
        exact hall
      have hsp : splitChar sep rest = [rest] := splitChar_of_all sep rest hall
      by_cases hc : c = sep
      · subst hc
        rw [hrw, takeWhile_append_all, if_pos hba, splitChar_cons_self, hsp]
        simp [List.takeWhile_cons]
      · rw [hrw, takeWhile_append_all, if_pos hba, splitChar_cons_ne hc hsp]
        simp [List.takeWhile_cons, bne_iff_ne, hc]
    · have hex : sep ∈ rest := by
        push_neg at hall
        rcases hall with ⟨x, hx, hxe⟩
        rwa [hxe] at hx
      have hba : rest.reverse.all (fun c => c != sep) = false := by
        rw [List.all_reverse, Bool.eq_false_iff]
        simp only [Ne, List.all_eq_true, bne_iff_ne]
        push_neg
        exact ⟨sep, hex, rfl⟩
      have hlen := splitChar_length_of_mem sep rest hex
      rw [hrw, takeWhile_append_all, hba, if_neg (by simp)]
      by_cases hc : c = sep
      · subst hc
        rw [splitChar_cons_self]
        cases hs : splitChar c rest with
        | nil => exact absurd hs (splitChar_ne_nil c rest)
        | cons g gs =>
          rw [hs] at ih
          rw [List.getLast?_cons_cons]
          exact ih
      · cases hs : splitChar sep rest with
        | nil => exact absurd hs (splitChar_ne_nil sep rest)
        | cons g gs =>
          cases gs with
          | nil => rw [hs] at hlen; simp at hlen
          | cons g2 gs' =>
            rw [hs] at ih
            rw [splitChar_cons_ne hc hs, List.getLast?_cons_cons,
              ← List.getLast?_cons_cons (a := g)]
            exact ih

/-- The source's split-based date extraction coincides with the
specification's wording: parse the segment preceding the first `-`
after the last `_`, succeeding exactly when that segment is a valid
`YYYYMMDD` date and panicking otherwise. -/
theorem extract_date_eq_spec (name : String) :
    extract_date_from_tarball_name name
      = match parseYYYYMMDD (specDateSegment name) with
        | some d => RunResult.ok d
        | none => RunResult.panicked "Failed to parse date from tarball name" := by
  unfold extract_date_from_tarball_name specDateSegment
  simp only [splitChar_getLast?, splitChar_head?]

theorem extract_date_ne_err (name : String) (m : String) :
    extract_date_from_tarball_name name ≠ .err m := by
  rw [extract_date_eq_spec]
  cases parseYYYYMMDD (specDateSegment name) <;> simp

/-- C6: for every tarball name, the date is parsed in `YYYYMMDD` form
from the segment preceding the first `-` after the last `_`; and the
three example names parse to 2023-11-25, 2024-01-01 and 2023-11-19. -/
theorem tarball_date_parsing :
    (∀ name : String,
      extract_date_from_tarball_name name
        = match parseYYYYMMDD (specDateSegment name) with
          | some d => RunResult.ok d
          | none => RunResult.panicked "Failed to parse date from tarball name")
    ∧ extract_date_from_tarball_name "CASS_20231125-130812.tar.gz"
        = .ok ⟨2023, 11, 25⟩
    ∧ extract_date_from_tarball_name "CASS_20240101-200918.tar.gz"
        = .ok ⟨2024, 1, 1⟩
    ∧ extract_date_from_tarball_name "Freemium_jorf_global_20231119-100000.tar.gz"
        = .ok ⟨2023, 11, 19⟩ :=
  ⟨extract_date_eq_spec, by decide, by decide, by decide⟩

/-- The closed enumeration of datasets (src/dumps/fonds.rs). -/
inductive Fond where
  | JORF | CNIL | JADE | LEGI | INCA | CASS | CAPP
deriving DecidableEq, Repr

/-- Rust `Fond::as_str` (src/dumps/fonds.rs). -/
def Fond.as_str : Fond → String
  | .JORF => "JORF"
  | .CNIL => "CNIL"
  | .JADE => "JADE"
  | .LEGI => "LEGI"
  | .INCA => "INCA"
  | .CASS => "CASS"
  | .CAPP => "CAPP"

/-- A tarball descriptor (src/dumps/tarballs.rs `struct Tarball`). -/
structure Tarball where
  name : String
  fond : Fond
  time : Date
deriving DecidableEq, Repr

/-- Rust `\w` of the regex crate, restricted to the ASCII repertoire the
listing pages use: letters, digits and underscore. -/
def isWordChar (c : Char) : Bool := c.isAlphanum || c = '_'

/-- Matches the tail `.tar.gz` of the pattern, where each `.` is the
regex any-character metacharacter (the dots are unescaped in the
source's pattern `\w*-\w*.tar.gz`): any char, `t`, `a`, `r`, any char,
`g`, `z`.  Returns the remaining input on success. -/
def tail7Match : List Char → Option (List Char)
  | _ :: 't' :: 'a' :: 'r' :: _ :: 'g' :: 'z' :: rest => some rest
  | _ => none

/-- The second `\w*` of the pattern followed by the tail, with the
leftmost-first (greedy, backtracking) preference of the regex crate:
consume a word character and try the longer match first, otherwise
stop the star here. -/
def starThenTail : List Char → Option (List Char)
  | [] => tail7Match []
  | c :: rest =>
    if isWordChar c then
      match starThenTail rest with
      | some r => some r
      | none => tail7Match (c :: rest)
    else tail7Match (c :: rest)

/-- The leading `\w*-` of the pattern.  `-` is not a word character, so
the greedy star deterministically takes the maximal word-character run
and the next character must be `-`. -/
def wordRunThenDash : List Char → Option (List Char)
  | [] => none
  | c :: rest =>
    if isWordChar c then wordRunThenDash rest
    else if c = '-' then some rest
    else none

/-- Attempt to match `\w*-\w*.tar.gz` at the head of the input,
returning the unconsumed suffix. -/
def matchTarballAt (s : List Char) : Option (List Char) :=
  (wordRunThenDash s).bind starThenTail

/-- Rust `Regex::captures_iter`: successive non-overlapping leftmost matches.
Every match consumes at least the `-` and the seven tail characters, so
a fuel of the input length is always sufficient. -/
def findTarballNamesAux : Nat → List Char → List String
  | 0, _ => []
  | _ + 1, [] => []
  | fuel + 1, c :: rest =>
    match matchTarballAt (c :: rest) with
    | some suf =>
      String.mk ((c :: rest).take ((c :: rest).length - suf.length))
        :: findTarballNamesAux fuel suf
    | none => findTarballNamesAux fuel rest

/-- All substrings of `content` matching `\w*-\w*.tar.gz`, in order of
occurrence. -/
def findTarballNames (content : String) : List String :=
  findTarballNamesAux content.data.length content.data

/-- Byte-order comparison of strings (Rust `str`'s `Ord`), on the ASCII
names that occur here this is code-point lexicographic order. -/
def charsLe : List Char → List Char → Bool
  | [], _ => true
  | _ :: _, [] => false
  | a :: l1, b :: l2 =>
    if a.val < b.val then true
    else if b.val < a.val then false
    else charsLe l1 l2

def strLe (a b : String) : Bool := charsLe a.data b.data

/-- Insertion step of the model of `Vec::sort`. -/
def insertSortedStr (x : String) : List String → List String
  | [] => [x]
  | y :: ys => if strLe x y then x :: y :: ys else y :: insertSortedStr x ys

/-- Model of `names.sort()` (a stable comparison sort). -/
def sortStrings : List String → List String
  | [] => []
  | x :: xs => insertSortedStr x (sortStrings xs)

/-- Model of `Vec::dedup`: removes consecutive duplicates. -/
def dedupAdj : List String → List String
  | [] => []
  | [x] => [x]
  | x :: y :: rest =>
    if x = y then dedupAdj (y :: rest) else x :: dedupAdj (y :: rest)

/-- The `filter_map` at the end of `get_tarballs_from_page_content`:
a name whose `extract_date_from_tarball_name` returns `Err` would be
skipped (`.ok()?`), but a panic inside it aborts the whole call. -/
def collectTarballs (fond : Fond) : List String → RunResult (List Tarball)
  | [] => .ok []
  | n :: ns =>
    match extract_date_from_tarball_name n with
    | .ok d => (collectTarballs fond ns).map (fun l => ⟨n, fond, d⟩ :: l)
    | .err _ => collectTarballs fond ns
    | .panicked m => .panicked m

/-- Rust `get_tarballs_from_page_content` (src/dumps/tarballs.rs): regex
scan, sort, dedup, then date extraction per name. -/
def get_tarballs_from_page_content (fond : Fond) (content : String) :
    RunResult (List Tarball) :=
  collectTarballs fond (dedupAdj (sortStrings (findTarballNames content)))

/-- An HTTP response, reduced to what the source inspects. -/
structure HttpResponse where
  status : Nat
  body : String

/-- Rust `reqwest::StatusCode::is_success`: the 2xx range. -/
def statusIsSuccess (s : Nat) : Bool := 200 ≤ s && s < 300

/-- Rust `list_tarballs` (src/dumps/tarballs.rs), with the already-received
response in place of the network call. -/
def list_tarballs (fond : Fond) (resp : HttpResponse) : RunResult (List Tarball) :=
  if statusIsSuccess resp.status then
    get_tarballs_from_page_content fond resp.body
  else .err "Failed to fetch tarballs"

example : findTarballNames "a-b.tar.gz" = ["a-b.tar.gz"] := by decide
example : findTarballNames "x <a href=\"CASS_20231125-130812.tar.gz\">CASS_20231125-130812.tar.gz</a> y"
    = ["CASS_20231125-130812.tar.gz", "CASS_20231125-130812.tar.gz"] := by decide
example : list_tarballs .CASS ⟨200, "a-b.tar.gz"⟩
    = .panicked "Failed to parse date from tarball name" := by decide

/-- The sorted, deduplicated name list the listing pipeline works on. -/
def sortedTarballNames (content : String) : List String :=
  dedupAdj (sortStrings (findTarballNames content))

/-- The date a name carries when its extraction succeeds (placeholder
value otherwise; only used under an is-ok hypothesis). -/
def dateOfName (n : String) : Date :=
  match extract_date_from_tarball_name n with
  | .ok d => d
  | _ => ⟨1970, 1, 1⟩

theorem extract_date_panicked_msg (n m : String)
    (h : extract_date_from_tarball_name n = .panicked m) :
    m = "Failed to parse date from tarball name" := by
  rw [extract_date_eq_spec] at h
  cases hp : parseYYYYMMDD (specDateSegment n) with
  | none => rw [hp] at h; simpa using h.symm
  | some d => rw [hp] at h; simp at h

theorem collectTarballs_all_ok (fond : Fond) (ns : List String)
    (h : ∀ n ∈ ns, (extract_date_from_tarball_name n).isOk = true) :
    collectTarballs fond ns
      = .ok (ns.map (fun n => ⟨n, fond, dateOfName n⟩)) := by
  induction ns with
  | nil => rfl
  | cons n ns ih =>
    have hn := h n (by simp)
    have hrec := ih (fun x hx => h x (by simp [hx]))
    cases he : extract_date_from_tarball_name n with
    | ok d =>
      simp only [collectTarballs, he, hrec, RunResult.map, List.map_cons]
      simp [dateOfName, he]
    | err m => rw [he] at hn; simp [RunResult.isOk] at hn
    | panicked m => rw [he] at hn; simp [RunResult.isOk] at hn

theorem collectTarballs_panicked (fond : Fond) (ns : List String)
    (h : ∃ n ∈ ns, (extract_date_from_tarball_name n).isOk = false) :
    collectTarballs fond ns
      = .panicked "Failed to parse date from tarball name" := by
  induction ns with
  | nil => simp at h
  | cons n ns ih =>
    rcases h with ⟨x, hx, hxf⟩
    rcases List.mem_cons.mp hx with h1 | h1
    · subst h1
      cases he : extract_date_from_tarball_name x with
      | ok d => rw [he] at hxf; simp [RunResult.isOk] at hxf
      | err m => exact absurd he (extract_date_ne_err x m)
      | panicked m =>
        have := extract_date_panicked_msg x m he
        subst this
        simp [collectTarballs, he]
    · have hrec := ih ⟨x, h1, hxf⟩
      cases he : extract_date_from_tarball_name n with
      | ok d => simp [collectTarballs, he, hrec, RunResult.map]
      | err m => exact absurd he (extract_date_ne_err n m)
      | panicked m =>
        have := extract_date_panicked_msg n m he
        subst this
        simp [collectTarballs, he]

/-- C4 (amended): on a non-2xx response `list` fails with an error; on a
2xx response whose every regex-extracted, sorted-and-deduplicated name
has a parseable date, it returns exactly those names as descriptors
with their dates; but a 2xx response containing a regex-matching name
whose date segment does not parse makes the call panic (the `expect`
in `extract_date_from_tarball_name`) instead of failing with an error. -/
theorem list_tarballs_semantics (fond : Fond) (resp : HttpResponse) :
    (statusIsSuccess resp.status = false →
      list_tarballs fond resp = .err "Failed to fetch tarballs")
    ∧ (statusIsSuccess resp.status = true →
        (∀ n ∈ sortedTarballNames resp.body,
          (extract_date_from_tarball_name n).isOk = true) →
        list_tarballs fond resp
          = .ok ((sortedTarballNames resp.body).map
              (fun n => ⟨n, fond, dateOfName n⟩)))
    ∧ (statusIsSuccess resp.status = true →
        (∃ n ∈ sortedTarballNames resp.body,
          (extract_date_from_tarball_name n).isOk = false) →
        list_tarballs fond resp
          = .panicked "Failed to parse date from tarball name") := by
  refine ⟨fun hf => ?_, fun ht hall => ?_, fun ht hex => ?_⟩
  · simp [list_tarballs, hf]
  · simp only [list_tarballs, ht, if_true, get_tarballs_from_page_content]
    exact collectTarballs_all_ok fond _ hall
  · simp only [list_tarballs, ht, if_true, get_tarballs_from_page_content]
    exact collectTarballs_panicked fond _ hex

/-- Witness for `list_tarballs_semantics`: a concrete 2xx listing body
with one well-formed name yields exactly its descriptor. -/
theorem list_tarballs_semantics_witness :
    list_tarballs .CASS
        ⟨200, "<a href=\"CASS_20231125-130812.tar.gz\">link</a>"⟩
      = .ok [⟨"CASS_20231125-130812.tar.gz", .CASS, ⟨2023, 11, 25⟩⟩] := by
  have h := (list_tarballs_semantics .CASS
    ⟨200, "<a href=\"CASS_20231125-130812.tar.gz\">link</a>"⟩).2.1
    (by decide) (by decide)
  rw [h]
  decide

/-- C4 (counterexample): a 2xx response whose body contains the
regex-matching name `a-b.tar.gz` (date segment `a`, not a valid
`YYYYMMDD` date) makes `list` panic, not fail with an
`UpstreamUnavailable`-style error as the claim states. -/
theorem list_tarballs_panics_on_bad_date :
    list_tarballs .CASS ⟨200, "a-b.tar.gz"⟩
      = .panicked "Failed to parse date from tarball name" := by decide

/-- The filesystem, as an association list from paths to byte contents
(first binding wins, like the single-writer usage in the source). -/
abbrev FS : Type := List (String × String)

/-- Rust `Path::join` for the flat paths used here. -/
def joinPath (dir s : String) : String := dir ++ "/" ++ s

/-- The possible outcomes of `client.get(url).send()` plus body
streaming, as far as `download_tarball` inspects them. -/
inductive HttpResult where
  | response (status : Nat) (body : String)
  | sendError (msg : String)
  | streamError (partialBody : String) (msg : String)

/-- Rust `download_tarball` (src/dumps/tarballs.rs): if the target path
exists the download is skipped with `Ok(false)`; a send error
propagates as `Err`; a 2xx response streams the body into the file and
returns `Ok(true)`; a mid-stream error leaves the partial file and
returns `Err`; a non-2xx response only logs a warning, creates no
file, and still falls through to the final `Ok(true)`. -/
def download_tarball (fs : FS) (outdir : String) (tb : Tarball)
    (h : HttpResult) : FS × RunResult Bool :=
  let path := joinPath outdir tb.name
  if (fs.lookup path).isSome then (fs, .ok false)
  else
    match h with
    | .sendError m => (fs, .err m)
    | .streamError partialBody m => ((path, partialBody) :: fs, .err m)
    | .response status body =>
      if statusIsSuccess status then ((path, body) :: fs, .ok true)
      else (fs, .ok true)

/-- The per-descriptor loop of `download_tarball_list`: each task keeps
its tarball when `download_tarball` returns `Ok(true)` and drops it on
`Ok(false)` or `Err` (the `buffer_unordered(10)` concurrency only
affects completion order, which the returned set does not depend on;
the loop is modelled sequentially). -/
def downloadLoop (dir : String) : FS → List (Tarball × HttpResult) → FS × List Tarball
  | fs, [] => (fs, [])
  | fs, (tb, h) :: rest =>
    let step := download_tarball fs dir tb h
    let recres := downloadLoop dir step.1 rest
    match step.2 with
    | .ok true => (recres.1, tb :: recres.2)
    | _ => (recres.1, recres.2)

/-- Rust `download_tarball_list` (src/dumps/tarballs.rs): creates the target
directory (failure there is the only error of the call), then runs the
per-descriptor downloads and returns the kept descriptors. -/
def download_tarball_list (fs : FS) (dirCreatable : Bool) (dir : String)
    (jobs : List (Tarball × HttpResult)) : FS × RunResult (List Tarball) :=
  if dirCreatable then
    let r := downloadLoop dir fs jobs
    (r.1, .ok r.2)
  else (fs, .err "Failed to create directory")

/-- C7: a descriptor whose target file already exists is skipped: the
filesystem is returned unchanged (the file's bytes in particular) and
the descriptor is reported as not newly downloaded (`Ok(false)`). -/
theorem download_skips_existing (fs : FS) (outdir : String) (tb : Tarball)
    (h : HttpResult)
    (hex : (fs.lookup (joinPath outdir tb.name)).isSome = true) :
    download_tarball fs outdir tb h = (fs, .ok false) := by
  simp [download_tarball, hex]

/-- Witness for `download_skips_existing` at a concrete filesystem. -/
theorem download_skips_existing_witness :
    (([("dl/a-b.tar.gz", "bytes")] : FS).lookup
        (joinPath "dl" "a-b.tar.gz")).isSome = true
    ∧ download_tarball [("dl/a-b.tar.gz", "bytes")] "dl"
        ⟨"a-b.tar.gz", .CASS, ⟨2023, 11, 25⟩⟩ (.response 200 "fresh")
        = ([("dl/a-b.tar.gz", "bytes")], .ok false) :=
  ⟨by decide, download_skips_existing _ _ _ _ (by decide)⟩

/-- C3 at the failing input: a descriptor whose download gets an HTTP
404 is returned in the newly-downloaded set (and no file is created),
because the non-2xx branch of `download_tarball` only warns and the
function still returns `Ok(true)`; the claim (and the spec) say such a
descriptor is omitted. -/
theorem download_includes_failed_non2xx :
    download_tarball_list [] true "dl"
        [(⟨"a-b.tar.gz", .CASS, ⟨2023, 11, 25⟩⟩, .response 404 "not found")]
      = ([], .ok [⟨"a-b.tar.gz", .CASS, ⟨2023, 11, 25⟩⟩]) := by decide

/-- An indexed record (src/dumps/tarballs.rs `struct FondXMLFile`):
exactly the three stored fields of an index document. -/
structure FondXMLFile where
  path : String
  body : String
  year : Nat
deriving DecidableEq, Repr

/-- The `path` fields of the documents matching a query, in
segment-traversal (here: index) order, as the streaming collector
visits them. -/
def matchingPaths (docs : List FondXMLFile) (q : FondXMLFile → Bool) : List String :=
  (docs.filter q).map (fun d => d.path)

/-- The file side of `FileListCollector` (src/dumps/tarballs.rs): the
save file is opened with `create(true).append(true)`, so the call
starts from the file's prior contents; each hit appends the stored
`path` and a newline (`write!(lock, "{}\n", s)`), and `harvest`
flushes. -/
def appendPathLines (prior : String) (paths : List String) : String :=
  paths.foldl (fun acc p => acc ++ p ++ "\n") prior

/-- Rust `search_index` (src/dumps/tarballs.rs), over a committed index
modelled as its document list.  Query parsing and scoring are
abstracted into the match predicate `q`; the `Count` collector yields
the number of matching documents; when a save path is given, the
second component is the save file's content after the call (prior
content plus one line per match).  The ranked top-10 preview is
elided. -/
def search_index (docs : List FondXMLFile) (q : FondXMLFile → Bool)
    (save : Option String) : Nat × Option String :=
  ((docs.filter q).length,
    save.map (fun prior => appendPathLines prior (matchingPaths docs q)))

/-- Rust `str::lines` / `BufRead::lines`: split at `'\n'`, no final
empty line for a trailing newline (the save files never contain
`'\r'`). -/
def linesList : List Char → List (List Char)
  | [] => []
  | c :: rest =>
    if c = '\n' then [] :: linesList rest
    else
      match linesList rest with
      | [] => [[c]]
      | l :: ls => (c :: l) :: ls

theorem linesList_ne_nil {l : List Char} (h : l ≠ []) : linesList l ≠ [] := by
  cases l with
  | nil => exact absurd rfl h
  | cons c rest =>
    simp only [linesList]
    split
    · simp
    · split <;> simp

theorem linesList_cons_nl (rest : List Char) :
    linesList ('\n' :: rest) = [] :: linesList rest := by
  simp [linesList]

theorem linesList_cons_ne {c : Char} {rest g : List Char} {gs : List (List Char)}
    (h : c ≠ '\n') (hs : linesList rest = g :: gs) :
    linesList (c :: rest) = (c :: g) :: gs := by
  simp [linesList, h, hs]

theorem linesList_cons_of_nil {c : Char} {rest : List Char}
    (h : c ≠ '\n') (hs : linesList rest = []) :
    linesList (c :: rest) = [[c]] := by
  simp [linesList, h, hs]

theorem linesList_append (A B : List Char)
    (h : A = [] ∨ A.getLast? = some '\n') :
    linesList (A ++ B) = linesList A ++ linesList B := by
  induction A with
  | nil => simp [linesList]
  | cons c A' ih =>
    rcases h with h | h
    · simp at h
    · cases A' with
      | nil =>
        simp only [List.getLast?_singleton, Option.some.injEq] at h
        subst h
        simp [linesList_cons_nl, linesList]
      | cons a A'' =>
        have h' : (a :: A'').getLast? = some '\n' := by
          rw [← List.getLast?_cons_cons (a := c)]
          exact h
        have ihh := ih (Or.inr h')
        by_cases hc : c = '\n'
        · subst hc
          rw [List.cons_append, linesList_cons_nl, ihh, linesList_cons_nl]
          simp
        · have hnn : linesList (a :: A'') ≠ [] := linesList_ne_nil (by simp)
          cases hg : linesList (a :: A'') with
          | nil => exact absurd hg hnn
          | cons g gs =>
            have hs2 : linesList ((a :: A'') ++ B) = g :: (gs ++ linesList B) := by
              rw [ihh, hg, List.cons_append]
            rw [List.cons_append, linesList_cons_ne hc hs2,
              linesList_cons_ne hc hg]
            simp

theorem linesList_line_no_nl (p : List Char) (h : '\n' ∉ p) :
    linesList (p ++ ['\n']) = [p] := by
  induction p with
  | nil => simp [linesList]
  | cons c p' ih =>
    have hc : c ≠ '\n' := fun he => h (he ▸ List.mem_cons_self c p')
    have hp' : '\n' ∉ p' := fun he => h (List.mem_cons_of_mem c he)
    have h1 := ih hp'
    rw [List.cons_append, linesList_cons_ne hc h1]

theorem linesList_join_lines (paths : List (List Char))
    (h : ∀ p ∈ paths, '\n' ∉ p) :
    linesList ((paths.map (fun p => p ++ ['\n'])).flatten) = paths := by
  induction paths with
  | nil => simp [linesList]
  | cons p rest ih =>
    have hp : '\n' ∉ p := h p (by simp)
    have hrest := ih (fun x hx => h x (by simp [hx]))
    simp only [List.map_cons, List.flatten_cons]
    rw [linesList_append _ _ (Or.inr (List.getLast?_concat _)),
      linesList_line_no_nl p hp, hrest]
    rfl

theorem appendPathLines_data (paths : List String) (prior : String) :
    (appendPathLines prior paths).data
      = prior.data ++ (paths.map (fun p => p.data ++ ['\n'])).flatten := by
  induction paths generalizing prior with
  | nil => simp [appendPathLines]
  | cons p rest ih =>
    have hstep : appendPathLines prior (p :: rest)
        = appendPathLines (prior ++ p ++ "\n") rest := rfl
    rw [hstep, ih]
    simp [String.data_append]

theorem linesList_fresh_save (docs : List FondXMLFile) (q : FondXMLFile → Bool)
    (hnl : ∀ p ∈ matchingPaths docs q, '\n' ∉ p.data) :
    linesList (appendPathLines "" (matchingPaths docs q)).data
      = (matchingPaths docs q).map (fun p => p.data) := by
  rw [appendPathLines_data]
  have h0 : ("" : String).data = [] := rfl
  rw [h0, List.nil_append]
  have hmap : (matchingPaths docs q).map (fun p => p.data ++ ['\n'])
      = ((matchingPaths docs q).map (fun p => p.data)).map (fun l => l ++ ['\n']) := by
    simp
  rw [hmap]
  exact linesList_join_lines _ (by
    intro p hp
    rcases List.mem_map.mp hp with ⟨x, hx, hxe⟩
    exact hxe ▸ hnl x hx)

/-- C2 (counterexample): with a pre-existing nonempty save file, the
line count after the call is the prior count plus the matches, not the
match count: one prior line `x` and one matching document give a save
file of two lines while `totalCount` is 1. -/
theorem query_save_count_counterexample :
    ¬ ((linesList (appendPathLines "x\n"
          (matchingPaths [⟨"p.xml", "b", 2023⟩] (fun _ => true))).data).length
        = (search_index [⟨"p.xml", "b", 2023⟩] (fun _ => true) (some "x\n")).1) := by
  decide

/-- C2 (amended): when the save file starts empty (it is created by the
collector when absent), the save file after the call has exactly
`totalCount` lines and every line is the stored `path` of a matching
document.  (Paths are assumed newline-free, as every path produced by
the indexer is.) -/
theorem query_save_consistency_fresh (docs : List FondXMLFile)
    (q : FondXMLFile → Bool)
    (hnl : ∀ p ∈ matchingPaths docs q, '\n' ∉ p.data) :
    (search_index docs q (some "")).2
        = some (appendPathLines "" (matchingPaths docs q))
    ∧ (linesList (appendPathLines "" (matchingPaths docs q)).data).length
        = (search_index docs q (some "")).1
    ∧ ∀ lcs ∈ linesList (appendPathLines "" (matchingPaths docs q)).data,
        ∃ d, d ∈ docs ∧ q d = true ∧ d.path.data = lcs := by
  refine ⟨rfl, ?_, ?_⟩
  · rw [linesList_fresh_save docs q hnl]
    simp [search_index, matchingPaths]
  · intro lcs hmem
    rw [linesList_fresh_save docs q hnl] at hmem
    rcases List.mem_map.mp hmem with ⟨p, hp, hpe⟩
    rcases List.mem_map.mp hp with ⟨d, hd, hde⟩
    exact ⟨d, (List.mem_filter.mp hd).1, (List.mem_filter.mp hd).2,
      by rw [hde, hpe]⟩

/-- Witness for `query_save_consistency_fresh` on a one-document index
whose document matches. -/
theorem query_save_consistency_fresh_witness :
    (∀ p ∈ matchingPaths [⟨"a.xml", "ceseda", 2023⟩] (fun _ => true),
      '\n' ∉ p.data)
    ∧ (linesList (appendPathLines ""
        (matchingPaths [⟨"a.xml", "ceseda", 2023⟩] (fun _ => true))).data).length
      = (search_index [⟨"a.xml", "ceseda", 2023⟩] (fun _ => true) (some "")).1 :=
  ⟨by decide,
    (query_save_consistency_fresh [⟨"a.xml", "ceseda", 2023⟩] (fun _ => true)
      (by decide)).2.1⟩

/-- C10 (counterexample): if the pre-existing save file does not end
with a newline, the first appended path fuses with the last prior
line: prior content `x` (one line) plus one match gives one line, not
two. -/
theorem save_sink_append_count_counterexample :
    ¬ ((linesList (appendPathLines "x"
          (matchingPaths [⟨"p.xml", "b", 2023⟩] (fun _ => true))).data).length
        = (linesList ("x" : String).data).length
          + (search_index [⟨"p.xml", "b", 2023⟩] (fun _ => true) (some "x")).1) := by
  decide

/-- C10 (amended): the save sink is opened in create+append mode and
never truncated: the prior contents are preserved as an exact prefix
with the matching paths appended after them, and when the prior
content is empty or newline-terminated (as every file written by this
collector is) the final line count is the prior line count plus the
number of matches of this call. -/
theorem save_sink_appends (docs : List FondXMLFile) (q : FondXMLFile → Bool)
    (prior : String) :
    (search_index docs q (some prior)).2
        = some (appendPathLines prior (matchingPaths docs q))
    ∧ (appendPathLines prior (matchingPaths docs q)).data
        = prior.data
          ++ ((matchingPaths docs q).map (fun p => p.data ++ ['\n'])).flatten
    ∧ ((prior.data = [] ∨ prior.data.getLast? = some '\n') →
        (∀ p ∈ matchingPaths docs q, '\n' ∉ p.data) →
        (linesList (appendPathLines prior (matchingPaths docs q)).data).length
          = (linesList prior.data).length
            + (search_index docs q (some prior)).1) := by
  refine ⟨rfl, appendPathLines_data _ _, fun hend hnl => ?_⟩
  rw [appendPathLines_data, linesList_append _ _ hend]
  have hmap : (matchingPaths docs q).map (fun p => p.data ++ ['\n'])
      = ((matchingPaths docs q).map (fun p => p.data)).map (fun l => l ++ ['\n']) := by
    simp
  rw [hmap, linesList_join_lines _ (by
    intro p hp
    rcases List.mem_map.mp hp with ⟨x, hx, hxe⟩
    exact hxe ▸ hnl x hx)]
  simp [search_index, matchingPaths]

/-- Witness for `save_sink_appends` with a newline-terminated prior
file and one match. -/
theorem save_sink_appends_witness :
    (("x\n" : String).data = [] ∨ ("x\n" : String).data.getLast? = some '\n')
    ∧ (linesList (appendPathLines "x\n"
        (matchingPaths [⟨"p.xml", "b", 2023⟩] (fun _ => true))).data).length
      = (linesList ("x\n" : String).data).length
        + (search_index [⟨"p.xml", "b", 2023⟩] (fun _ => true) (some "x\n")).1 :=
  ⟨Or.inr (by decide),
    (save_sink_appends [⟨"p.xml", "b", 2023⟩] (fun _ => true) "x\n").2.2
      (Or.inr (by decide)) (by decide)⟩

/-- The quick-xml events the source inspects (`Event::Start`, `End`,
`Empty`, `Text`, and the declaration; `Eof` is the end of the list). -/
inductive XEvent where
  | start (name : String)
  | xend (name : String)
  | empty (name : String)
  | text (raw : String)
  | decl
deriving DecidableEq, Repr

def isXmlSpace (c : Char) : Bool :=
  c = ' ' || c = '\n' || c = '\t' || c = '\r'

/-- Classify the contents of one `<...>` tag as quick-xml does on this
corpus: `?...` is the XML declaration, `/name` an end tag, a trailing
`/` an empty-element tag, anything else a start tag; the element name
is the part up to the first whitespace (attributes follow it). -/
def tagEvent (tag : List Char) : XEvent :=
  match tag with
  | '?' :: _ => .decl
  | '/' :: nameCs => .xend (String.mk (nameCs.takeWhile (fun c => !isXmlSpace c)))
  | _ =>
    if tag.getLast? = some '/' then
      .empty (String.mk (tag.dropLast.takeWhile (fun c => !isXmlSpace c)))
    else .start (String.mk (tag.takeWhile (fun c => !isXmlSpace c)))

/-- Model of the quick-xml pull reader on the corpus's XML subset (no
comments, CDATA or doctype): alternate raw text runs and `<...>` tags.
Each step consumes at least one character, so fuel equal to the input
length always suffices. -/
def lexXmlAux : Nat → List Char → List XEvent
  | 0, _ => []
  | _ + 1, [] => []
  | fuel + 1, c :: rest =>
    if c = '<' then
      let tag := rest.takeWhile (fun x => x != '>')
      tagEvent tag :: lexXmlAux fuel ((rest.drop tag.length).drop 1)
    else
      let txt := (c :: rest).takeWhile (fun x => x != '<')
      .text (String.mk txt) :: lexXmlAux fuel ((c :: rest).drop txt.length)

def lexXml (content : String) : List XEvent :=
  lexXmlAux content.data.length content.data

/-- Rust `BytesText::unescape`: resolve the five predefined XML entities
(unknown entity errors do not arise on this corpus and are passed
through verbatim). -/
def unescapeAux : Nat → List Char → List Char
  | 0, l => l
  | _ + 1, [] => []
  | fuel + 1, '&' :: rest =>
    if rest.take 4 = ['a', 'm', 'p', ';'] then '&' :: unescapeAux fuel (rest.drop 4)
    else if rest.take 3 = ['l', 't', ';'] then '<' :: unescapeAux fuel (rest.drop 3)
    else if rest.take 3 = ['g', 't', ';'] then '>' :: unescapeAux fuel (rest.drop 3)
    else if rest.take 5 = ['q', 'u', 'o', 't', ';'] then
      '"' :: unescapeAux fuel (rest.drop 5)
    else if rest.take 5 = ['a', 'p', 'o', 's', ';'] then
      '\'' :: unescapeAux fuel (rest.drop 5)
    else '&' :: unescapeAux fuel rest
  | fuel + 1, c :: rest => c :: unescapeAux fuel rest

def unescape (s : String) : String :=
  String.mk (unescapeAux s.data.length s.data)

/-- Rust `PreDilaText` (src/dumps/extractor.rs). -/
structure PreDilaText where
  id : String
  oldid : String
  origin : String
  url : String
  nature : String
  title : Option String
  decision_date : Option String
  jurisdiction : Option String
  juri_code : Option String
  requester : Option String
  president : Option String
  lawyers : Option String
  rapporteur : Option String
  government_commissioner : Option String
  ecli_code : Option String
  text : String
deriving DecidableEq, Repr

/-- Rust `Default for PreDilaText`. -/
def PreDilaText.default : PreDilaText :=
  ⟨"", "", "", "", "", none, none, none, none, none, none, none, none,
    none, none, ""⟩

/-- Rust `ReadingState` (src/dumps/extractor.rs). -/
inductive ReadingState where
  | ID | OldID | Origin | URL | Nature | Title | DecisionDate | Jurisdiction
  | JuriCode | Requester | President | Lawyers | Rapporteur
  | GovernmentCommissioner | ECLICode | Text
deriving DecidableEq, Repr

/-- Rust `event_to_reading_state` (src/dumps/extractor.rs). -/
def event_to_reading_state (e : String) : Option ReadingState :=
  match e with
  | "ID" => some .ID
  | "ANCIEN_ID" => some .OldID
  | "ORIGINE" => some .Origin
  | "URL" => some .URL
  | "NATURE" => some .Nature
  | "TITRE" => some .Title
  | "DATE_DEC" => some .DecisionDate
  | "JURIDICTION" => some .Jurisdiction
  | "NUMERO" => some .JuriCode
  | "DEMANDEUR" => some .Requester
  | "PRESIDENT" => some .President
  | "AVOCATS" => some .Lawyers
  | "RAPPORTEUR" => some .Rapporteur
  | "COMMISSAIRE_GVT" => some .GovernmentCommissioner
  | "ECLI" => some .ECLICode
  | "CONTENU" => some .Text
  | _ => none

/-- Rust `update_pre_dila` (src/dumps/extractor.rs): scalar fields are
overwritten, `text` is appended to. -/
def update_pre_dila (p : PreDilaText) (rs : Option ReadingState)
    (txt : String) : PreDilaText :=
  match rs with
  | none => p
  | some s =>
    match s with
    | .ID => { p with id := txt }
    | .OldID => { p with oldid := txt }
    | .Origin => { p with origin := txt }
    | .URL => { p with url := txt }
    | .Nature => { p with nature := txt }
    | .Title => { p with title := some txt }
    | .DecisionDate => { p with decision_date := some txt }
    | .Jurisdiction => { p with jurisdiction := some txt }
    | .JuriCode => { p with juri_code := some txt }
    | .Requester => { p with requester := some txt }
    | .President => { p with president := some txt }
    | .Lawyers => { p with lawyers := some txt }
    | .Rapporteur => { p with rapporteur := some txt }
    | .GovernmentCommissioner => { p with government_commissioner := some txt }
    | .ECLICode => { p with ecli_code := some txt }
    | .Text => { p with text := p.text ++ txt }

/-- The event loop of `reader_to_pre_dila` (src/dumps/extractor.rs):
a recognized start tag opens its reading state, a matching end tag
clears it, text events update the record under the current state,
empty-element tags and the declaration are ignored. -/
def readLoop : List XEvent → PreDilaText → Option ReadingState → PreDilaText
  | [], p, _ => p
  | e :: rest, p, rs =>
    match e with
    | .start n =>
      readLoop rest p
        (match event_to_reading_state n with
          | some s => some s
          | none => rs)
    | .xend n =>
      readLoop rest p (if event_to_reading_state n = rs then none else rs)
    | .text t => readLoop rest (update_pre_dila p rs (unescape t)) rs
    | .empty _ => readLoop rest p rs
    | .decl => readLoop rest p rs

/-- Rust `reader_to_pre_dila` (src/dumps/extractor.rs). -/
def reader_to_pre_dila (events : List XEvent) : PreDilaText :=
  readLoop events PreDilaText.default none

/-- The extension of a path, as `Path::extension().unwrap_or_default()`
computes it: the part of the file name after its last `.`, empty when
there is no `.` or when the only `.` is the leading one. -/
def pathExtension (p : String) : String :=
  let fname := (splitChar '/' p.data).getLastD []
  match splitChar '.' fname with
  | [] => ""
  | [_] => ""
  | [stem, ext] => if stem = [] then "" else String.mk ext
  | parts => String.mk (parts.getLastD [])

namespace Extractor

/-- Rust `parse_file` (src/dumps/extractor.rs): panics when the path does
not exist (or is not a file) or does not have the `.xml` extension;
otherwise reads the file and runs the event state machine. -/
def parse_file (fs : FS) (path : String) : RunResult PreDilaText :=
  match fs.lookup path with
  | none => .panicked "File does not exist"
  | some content =>
    if pathExtension path != "xml" then .panicked "File is not an XML file"
    else .ok (reader_to_pre_dila (lexXml content))

end Extractor

example : lexXml "<ID>x31</ID>"
    = [.start "ID", .text "x31", .xend "ID"] := by decide
example : lexXml "<a b=\"c\"><br/>t"
    = [.start "a", .empty "br", .text "t"] := by decide
example : (reader_to_pre_dila (lexXml "<ID>x31</ID>")).id = "x31" := by decide
example : pathExtension "results/doc.xml" = "xml" := by decide
example : pathExtension "results/doc.xml\n" = "xml\n" := by decide


/-- A syntactic piece of an XML document: one `<...>` markup tag (its
content between the angle brackets) or one maximal text run. -/
inductive Piece where
  | tag (inner : String)
  | textP (s : String)

/-- Rendering a piece back to its source characters. -/
def renderPiece : Piece → String
  | .tag inner => "<" ++ inner ++ ">"
  | .textP s => s

/-- Concatenating the pieces gives the document back. -/
def renderPieces : List Piece → String
  | [] => ""
  | p :: rest => renderPiece p ++ renderPieces rest

/-- The quick-xml event each piece lexes to. -/
def pieceToEvent : Piece → XEvent
  | .tag inner => tagEvent inner.data
  | .textP s => .text s

/-- Well-formed piece lists: tag contents contain no `>`, text runs are
nonempty, contain no `<`, and are maximal (never followed by another
text run). -/
def wfPieces : List Piece → Prop
  | [] => True
  | .tag inner :: rest => '>' ∉ inner.data ∧ wfPieces rest
  | [.textP s] => s.data ≠ [] ∧ '<' ∉ s.data
  | .textP s :: .tag inner :: rest =>
      s.data ≠ [] ∧ '<' ∉ s.data ∧ wfPieces (.tag inner :: rest)
  | .textP _ :: .textP _ :: _ => False

theorem takeWhile_of_all {α : Type} {p : α → Bool} {l : List α}
    (h : l.all p = true) : l.takeWhile p = l := by
  induction l with
  | nil => rfl
  | cons a rest ih =>
    simp only [List.all_cons, Bool.and_eq_true] at h
    simp [List.takeWhile_cons, h.1, ih h.2]

theorem lexXmlAux_cons_lt (f : Nat) (rest : List Char) :
    lexXmlAux (f + 1) ('<' :: rest)
      = tagEvent (rest.takeWhile (fun x => x != '>'))
        :: lexXmlAux f
            ((rest.drop (rest.takeWhile (fun x => x != '>')).length).drop 1) := by
  simp [lexXmlAux]

theorem lexXmlAux_cons_ne (f : Nat) (c : Char) (rest : List Char) (h : c ≠ '<') :
    lexXmlAux (f + 1) (c :: rest)
      = XEvent.text (String.mk ((c :: rest).takeWhile (fun x => x != '<')))
        :: lexXmlAux f
            ((c :: rest).drop ((c :: rest).takeWhile (fun x => x != '<')).length) := by
  simp [lexXmlAux, h]

theorem all_bne_of_not_mem {c : Char} {l : List Char} (h : c ∉ l) :
    l.all (fun x => x != c) = true := by
  simp only [List.all_eq_true, bne_iff_ne]
  intro x hx he
  exact h (he ▸ hx)

/-- The lexer on a rendered well-formed piece list yields exactly one
event per piece (any fuel at least the number of pieces suffices). -/
theorem lexXmlAux_render (pieces : List Piece) :
    ∀ fuel : Nat, wfPieces pieces → pieces.length ≤ fuel →
    lexXmlAux fuel (renderPieces pieces).data = pieces.map pieceToEvent := by
  induction pieces with
  | nil =>
    intro fuel _ _
    cases fuel <;> simp [renderPieces, lexXmlAux]
  | cons p rest ih =>
    intro fuel hwf hfuel
    cases fuel with
    | zero => simp at hfuel
    | succ f =>
      have hf : rest.length ≤ f := by simpa using hfuel
      cases p with
      | tag inner =>
        have hwf1 : '>' ∉ inner.data := hwf.1
        have hwfr : wfPieces rest := hwf.2
        have hdata : (renderPieces (Piece.tag inner :: rest)).data
            = '<' :: (inner.data ++ ('>' :: (renderPieces rest).data)) := by
          simp [renderPieces, renderPiece, String.data_append]
        have htake : (inner.data ++ ('>' :: (renderPieces rest).data)).takeWhile
            (fun x => x != '>') = inner.data := by
          rw [takeWhile_append_all, if_pos (all_bne_of_not_mem hwf1)]
          simp [List.takeWhile_cons]
        rw [hdata, lexXmlAux_cons_lt, htake, List.drop_left, List.drop_one,
          List.tail_cons, ih f hwfr hf]
        simp [pieceToEvent]
      | textP s =>
        cases rest with
        | nil =>
          have hne : s.data ≠ [] := hwf.1
          have hnl : '<' ∉ s.data := hwf.2
          have hdata : (renderPieces [Piece.textP s]).data = s.data := by
            simp [renderPieces, renderPiece, String.data_append]
          cases hs : s.data with
          | nil => exact absurd hs hne
          | cons c cs =>
            have hc : c ≠ '<' := fun he => hnl (by rw [hs, he]; simp)
            have htake : (c :: cs).takeWhile (fun x => x != '<') = c :: cs := by
              apply takeWhile_of_all
              apply all_bne_of_not_mem
              rw [← hs]
              exact hnl
            rw [hdata, hs, lexXmlAux_cons_ne f c cs hc, htake, List.drop_length]
            have : lexXmlAux f [] = [] := by cases f <;> simp [lexXmlAux]
            rw [this]
            simp only [List.map_cons, List.map_nil, pieceToEvent]
            rw [← hs]
        | cons p2 rest2 =>
          cases p2 with
          | textP s2 => simp [wfPieces] at hwf
          | tag inner2 =>
            have hne : s.data ≠ [] := hwf.1
            have hnl : '<' ∉ s.data := hwf.2.1
            have hwfr : wfPieces (Piece.tag inner2 :: rest2) := hwf.2.2
            have hX : (renderPieces (Piece.tag inner2 :: rest2)).data
                = '<' :: (inner2.data ++ ('>' :: (renderPieces rest2).data)) := by
              simp [renderPieces, renderPiece, String.data_append]
            have hdata : (renderPieces (Piece.textP s :: Piece.tag inner2 :: rest2)).data
                = s.data ++ (renderPieces (Piece.tag inner2 :: rest2)).data := by
              simp [renderPieces, renderPiece, String.data_append]
            cases hs : s.data with
            | nil => exact absurd hs hne
            | cons c cs =>
              have hc : c ≠ '<' := fun he => hnl (by rw [hs, he]; simp)
              have htake : ((c :: cs)
                    ++ (renderPieces (Piece.tag inner2 :: rest2)).data).takeWhile
                  (fun x => x != '<') = c :: cs := by
                rw [takeWhile_append_all,
                  if_pos (all_bne_of_not_mem (hs ▸ hnl)), hX]
                simp [List.takeWhile_cons]
              have hdrop : ((c :: cs)
                    ++ (renderPieces (Piece.tag inner2 :: rest2)).data).drop
                  (c :: cs).length
                  = (renderPieces (Piece.tag inner2 :: rest2)).data :=
                List.drop_left _ _
              rw [hdata, hs, List.cons_append, lexXmlAux_cons_ne f c
                (cs ++ (renderPieces (Piece.tag inner2 :: rest2)).data) hc,
                ← List.cons_append, htake, hdrop, ih f hwfr hf]
              simp only [List.map_cons, pieceToEvent]
              rw [← hs]

/-- A long text run of the fixture, in slices (concatenated, the
run verbatim). -/
def longText1 : String :=
  "\n              2.\tEn vertu de l'article R. 421-1 du code de l'urbanisme, les constructions nouvelles doivent être précédées de la délivrance d'un permis de construire à l'exception des constructions mentionnées aux articles R. 421-2 à R. 421-8, qui sont dispensées de toute formalité au titre du code de l'urbanisme, et des constructions mentionnées aux articles R. 421-9 à R. 421-12, qui doivent fai"
    ++ "re l'objet d'une déclaration préalable. Selon le a) de l'article R. 421-2 du même code, les constructions nouvelles dont la hauteur au-dessus du sol est inférieure à douze mètres et qui ont pour effet de créer une surface de plancher et une emprise au sol inférieures ou égales à cinq mètres carrés sont dispensées, en dehors des secteurs sauvegardés et des sites classés, de toute formalité au titre"
    ++ " du code de l'urbanisme. Aux termes de l'article R. 421-9 du même code, dans sa rédaction issue du décret du 10 décembre 2018 relatif à l'extension du régime de la déclaration préalable aux projets d'installation d'antennes-relais de radiotéléphonie mobile et à leurs locaux ou installations techniques au titre du code de l'urbanisme : \" En dehors du périmètre des sites patrimoniaux remarquables, d"
    ++ "es abords des monuments historiques et des sites classés ou en instance de classement, les constructions nouvelles suivantes doivent être précédées d'une déclaration préalable, à l'exception des cas mentionnés à la sous-section 2 ci-dessus : / (...) c) Les constructions répondant aux critères cumulatifs suivants : / - une hauteur au-dessus du sol supérieure à douze mètres ; / - une emprise au sol "
    ++ "inférieure ou égale à cinq mètres carrés ; / - une surface de plancher inférieure ou égale à cinq mètres carrés. / Toutefois, ces dispositions ne sont applicables ni aux éoliennes, ni aux ouvrages de production d'électricité à partir de l'énergie solaire installés au sol, ni aux antennes-relais de radiotéléphonie mobile ; (...) / j) Les antennes-relais de radiotéléphonie mobile et leurs systèmes d"
    ++ "'accroche, quelle que soit leur hauteur, et les locaux ou installations techniques nécessaires à leur fonctionnement dès lors que ces locaux ou installations techniques ont une surface de plancher et une emprise au sol supérieures à 5 m² et inférieures ou égales à 20 m² \"."

/-- A long text run of the fixture, in slices (concatenated, the
run verbatim). -/
def longText2 : String :=
  "51-02-01 POSTES ET COMMUNICATIONS ÉLECTRONIQUES. - COMMUNICATIONS ÉLECTRONIQUES. - TÉLÉPHONE. - CONSTRUCTION NOUVELLE D’ANTENNES-RELAIS DE RADIOTÉLÉPHONIE MOBILE EN DEHORS DES SECTEURS PROTÉGÉS – 1) A) PROJETS SOUMIS À DÉCLARATION PRÉALABLE – I) POUR TOUTES LES ANTENNES – SURFACE DE PLANCHER ET EMPRISE AU SOL ENTRE 5 ET 20 M² – II) POUR LES ANTENNES DE PLUS DE 12 M – SURFACE DE PLANCHER ET EMPRISE"
    ++ " AU SOL INFÉRIEURES À 5 M² – B) PROJETS DISPENSÉS DE TOUTE FORMALITÉ – ANTENNES DE MOINS DE 12 M ENTRAÎNANT LA CRÉATION D’UNE SURFACE DE PLANCHER ET D’UNE EMPRISE AU SOL INFÉRIEURES OU ÉGALES À 5 M² – 2) APPRÉCIATION DES SEUILS DE SURFACE DE PLANCHER ET D’EMPRISE AU SOL – INCLUSION – SURFACE ET EMPRISE DES LOCAUX ET INSTALLATIONS TECHNIQUES – EXCLUSION – EMPRISE DES PYLÔNES [RJ1].\n"

/-- A long text run of the fixture, in slices (concatenated, the
run verbatim). -/
def longText3 : String :=
  "68-03-01-02 URBANISME ET AMÉNAGEMENT DU TERRITOIRE. - PERMIS DE CONSTRUIRE. - TRAVAUX SOUMIS AU PERMIS. - NE PRÉSENTENT PAS CE CARACTÈRE. - CONSTRUCTION NOUVELLE D’ANTENNES-RELAIS DE RADIOTÉLÉPHONIE MOBILE EN DEHORS DES SECTEURS PROTÉGÉS – 1) A) PROJETS SOUMIS À DÉCLARATION PRÉALABLE – I) POUR TOUTES LES ANTENNES – SURFACE DE PLANCHER ET EMPRISE AU SOL ENTRE 5 ET 20 M² – II) POUR LES ANTENNES DE P"
    ++ "LUS DE 12 M – SURFACE DE PLANCHER ET EMPRISE AU SOL INFÉRIEURES À 5 M² – B) PROJETS DISPENSÉS DE TOUTE FORMALITÉ – ANTENNES DE MOINS DE 12 M ENTRAÎNANT LA CRÉATION D’UNE SURFACE DE PLANCHER ET D’UNE EMPRISE AU SOL INFÉRIEURES OU ÉGALES À 5 M² – 2) APPRÉCIATION DES SEUILS DE SURFACE DE PLANCHER ET D’EMPRISE AU SOL – INCLUSION – SURFACE ET EMPRISE DES LOCAUX ET INSTALLATIONS TECHNIQUES – EXCLUSION –"
    ++ " EMPRISE DES PYLÔNES [RJ1].\n"

/-- A long text run of the fixture, in slices (concatenated, the
run verbatim). -/
def longText4 : String :=
  "68-04-045 URBANISME ET AMÉNAGEMENT DU TERRITOIRE. - AUTORISATIONS D`UTILISATION DES SOLS DIVERSES. - RÉGIMES DE DÉCLARATION PRÉALABLE. - CONSTRUCTION NOUVELLE D’ANTENNES-RELAIS DE RADIOTÉLÉPHONIE MOBILE EN DEHORS DES SECTEURS PROTÉGÉS – 1) A) PROJETS SOUMIS À DÉCLARATION PRÉALABLE – I) POUR TOUTES LES ANTENNES – SURFACE DE PLANCHER ET EMPRISE AU SOL ENTRE 5 ET 20 M² – II) POUR LES ANTENNES DE PLUS"
    ++ " DE 12 M – SURFACE DE PLANCHER ET EMPRISE AU SOL INFÉRIEURES À 5 M² – B) PROJETS DISPENSÉS DE TOUTE FORMALITÉ – ANTENNES DE MOINS DE 12 M ENTRAÎNANT LA CRÉATION D’UNE SURFACE DE PLANCHER ET D’UNE EMPRISE AU SOL INFÉRIEURES OU ÉGALES À 5 M² – 2) APPRÉCIATION DES SEUILS DE SURFACE DE PLANCHER ET D’EMPRISE AU SOL – INCLUSION – SURFACE ET EMPRISE DES LOCAUX ET INSTALLATIONS TECHNIQUES – EXCLUSION – EM"
    ++ "PRISE DES PYLÔNES [RJ1].\n"

/-- A long text run of the fixture, in slices (concatenated, the
run verbatim). -/
def longText5 : String :=
  " 51-02-01 1) a) Les c et j de l’article R. 421-9 du code de l’urbanisme, dans leur rédaction issue du décret n° 2018-1123 du 10 décembre 2018, doivent être lus, au regard de l’objet des modifications opérées par ce décret, comme soumettant à la procédure de déclaration préalable la construction d’antennes-relais de radiotéléphonie mobile, de leurs systèmes d'accroche, et des locaux ou installation"
    ++ "s techniques nécessaires à leur fonctionnement lorsque i) soit, quelle que soit la hauteur de l’antenne, la surface de plancher et l'emprise au sol créées sont supérieures à 5 mètres carrés et inférieure ou égale à 20 mètres carrés, ii) soit, s’agissant des antennes d’une hauteur supérieure à douze mètres, la surface de plancher et l'emprise au sol créées sont inférieures ou égales à 5 mètres carr"
    ++ "és. ...b) Les projets comportant des antennes d’une hauteur inférieure ou égale à 12 mètres et entraînant la création d’une surface de plancher et d’une emprise au sol inférieures ou égales à 5 mètres carrés restent dispensés de toute formalité en application des dispositions de l’article R. 421-2....2) Pour l’appréciation des seuils applicables à ces projets de constructions, s’agissant tant de c"
    ++ "eux fixés au j de l’article R. 421-9 du code de l’urbanisme, que de ceux mentionnés au c de cet article et au a de l’article R. 421-2, seules la surface de plancher et l’emprise au sol des locaux et installations techniques doivent être prises en compte, et non l’emprise au sol des pylônes."

/-- A long text run of the fixture, in slices (concatenated, the
run verbatim). -/
def longText6 : String :=
  " 68-03-01-02 1) a) Les c et j de l’article R. 421-9 du code de l’urbanisme, dans leur rédaction issue du décret n° 2018-1123 du 10 décembre 2018, doivent être lus, au regard de l’objet des modifications opérées par ce décret, comme soumettant à la procédure de déclaration préalable la construction d’antennes-relais de radiotéléphonie mobile, de leurs systèmes d'accroche, et des locaux ou installat"
    ++ "ions techniques nécessaires à leur fonctionnement lorsque i) soit, quelle que soit la hauteur de l’antenne, la surface de plancher et l'emprise au sol créées sont supérieures à 5 mètres carrés et inférieure ou égale à 20 mètres carrés, ii) soit, s’agissant des antennes d’une hauteur supérieure à douze mètres, la surface de plancher et l'emprise au sol créées sont inférieures ou égales à 5 mètres c"
    ++ "arrés. ...b) Les projets comportant des antennes d’une hauteur inférieure ou égale à 12 mètres et entraînant la création d’une surface de plancher et d’une emprise au sol inférieures ou égales à 5 mètres carrés restent dispensés de toute formalité en application des dispositions de l’article R. 421-2....2) Pour l’appréciation des seuils applicables à ces projets de constructions, s’agissant tant d"
    ++ "e ceux fixés au j de l’article R. 421-9 du code de l’urbanisme, que de ceux mentionnés au c de cet article et au a de l’article R. 421-2, seules la surface de plancher et l’emprise au sol des locaux et installations techniques doivent être prises en compte, et non l’emprise au sol des pylônes."

/-- A long text run of the fixture, in slices (concatenated, the
run verbatim). -/
def longText7 : String :=
  " 68-04-045 1) a) Les c et j de l’article R. 421-9 du code de l’urbanisme, dans leur rédaction issue du décret n° 2018-1123 du 10 décembre 2018, doivent être lus, au regard de l’objet des modifications opérées par ce décret, comme soumettant à la procédure de déclaration préalable la construction d’antennes-relais de radiotéléphonie mobile, de leurs systèmes d'accroche, et des locaux ou installatio"
    ++ "ns techniques nécessaires à leur fonctionnement lorsque i) soit, quelle que soit la hauteur de l’antenne, la surface de plancher et l'emprise au sol créées sont supérieures à 5 mètres carrés et inférieure ou égale à 20 mètres carrés, ii) soit, s’agissant des antennes d’une hauteur supérieure à douze mètres, la surface de plancher et l'emprise au sol créées sont inférieures ou égales à 5 mètres car"
    ++ "rés. ...b) Les projets comportant des antennes d’une hauteur inférieure ou égale à 12 mètres et entraînant la création d’une surface de plancher et d’une emprise au sol inférieures ou égales à 5 mètres carrés restent dispensés de toute formalité en application des dispositions de l’article R. 421-2....2) Pour l’appréciation des seuils applicables à ces projets de constructions, s’agissant tant de "
    ++ "ceux fixés au j de l’article R. 421-9 du code de l’urbanisme, que de ceux mentionnés au c de cet article et au a de l’article R. 421-2, seules la surface de plancher et l’emprise au sol des locaux et installations techniques doivent être prises en compte, et non l’emprise au sol des pylônes."

theorem stringAppend_data_ne_nil (a b : String) (h : a.data ≠ []) :
    (a ++ b).data ≠ [] := by
  rw [String.data_append]
  intro he
  exact h (List.append_eq_nil.mp he).1

theorem stringAppend_not_mem (c : Char) (a b : String)
    (ha : c ∉ a.data) (hb : c ∉ b.data) : c ∉ (a ++ b).data := by
  rw [String.data_append]
  simp only [List.mem_append]
  rintro (h | h)
  · exact ha h
  · exact hb h

theorem longText1_ne_nil : longText1.data ≠ [] := by
  unfold longText1
  exact stringAppend_data_ne_nil _ _ (stringAppend_data_ne_nil _ _ (stringAppend_data_ne_nil _ _ (stringAppend_data_ne_nil _ _ (stringAppend_data_ne_nil _ _ (by decide)))))

theorem longText1_no_lt : '<' ∉ longText1.data := by
  unfold longText1
  exact stringAppend_not_mem '<' _ _ (stringAppend_not_mem '<' _ _ (stringAppend_not_mem '<' _ _ (stringAppend_not_mem '<' _ _ (stringAppend_not_mem '<' _ _ (by decide) (by decide)) (by decide)) (by decide)) (by decide)) (by decide)

theorem longText2_ne_nil : longText2.data ≠ [] := by
  unfold longText2
  exact stringAppend_data_ne_nil _ _ (by decide)

theorem longText2_no_lt : '<' ∉ longText2.data := by
  unfold longText2
  exact stringAppend_not_mem '<' _ _ (by decide) (by decide)

theorem longText3_ne_nil : longText3.data ≠ [] := by
  unfold longText3
  exact stringAppend_data_ne_nil _ _ (stringAppend_data_ne_nil _ _ (by decide))

theorem longText3_no_lt : '<' ∉ longText3.data := by
  unfold longText3
  exact stringAppend_not_mem '<' _ _ (stringAppend_not_mem '<' _ _ (by decide) (by decide)) (by decide)

theorem longText4_ne_nil : longText4.data ≠ [] := by
  unfold longText4
  exact stringAppend_data_ne_nil _ _ (stringAppend_data_ne_nil _ _ (by decide))

theorem longText4_no_lt : '<' ∉ longText4.data := by
  unfold longText4
  exact stringAppend_not_mem '<' _ _ (stringAppend_not_mem '<' _ _ (by decide) (by decide)) (by decide)

theorem longText5_ne_nil : longText5.data ≠ [] := by
  unfold longText5
  exact stringAppend_data_ne_nil _ _ (stringAppend_data_ne_nil _ _ (stringAppend_data_ne_nil _ _ (by decide)))

theorem longText5_no_lt : '<' ∉ longText5.data := by
  unfold longText5
  exact stringAppend_not_mem '<' _ _ (stringAppend_not_mem '<' _ _ (stringAppend_not_mem '<' _ _ (by decide) (by decide)) (by decide)) (by decide)

theorem longText6_ne_nil : longText6.data ≠ [] := by
  unfold longText6
  exact stringAppend_data_ne_nil _ _ (stringAppend_data_ne_nil _ _ (stringAppend_data_ne_nil _ _ (by decide)))

theorem longText6_no_lt : '<' ∉ longText6.data := by
  unfold longText6
  exact stringAppend_not_mem '<' _ _ (stringAppend_not_mem '<' _ _ (stringAppend_not_mem '<' _ _ (by decide) (by decide)) (by decide)) (by decide)

theorem longText7_ne_nil : longText7.data ≠ [] := by
  unfold longText7
  exact stringAppend_data_ne_nil _ _ (stringAppend_data_ne_nil _ _ (stringAppend_data_ne_nil _ _ (by decide)))

theorem longText7_no_lt : '<' ∉ longText7.data := by
  unfold longText7
  exact stringAppend_not_mem '<' _ _ (stringAppend_not_mem '<' _ _ (stringAppend_not_mem '<' _ _ (by decide) (by decide)) (by decide)) (by decide)

def examplePieces1 : List Piece := [
    .textP "\n",
    .tag "?xml version=\"1.0\" encoding=\"UTF-8\"?",
    .textP "\n",
    .tag "TEXTE_JURI_ADMIN",
    .textP "\n",
    .tag "META",
    .textP "\n",
    .tag "META_COMMUN",
    .textP "\n",
    .tag "ID",
    .textP "CETATEXT000049314894",
    .tag "/ID",
    .textP "\n",
    .tag "ANCIEN_ID",
    .textP "JG_L_2024_03_000000490536",
    .tag "/ANCIEN_ID",
    .textP "\n",
    .tag "ORIGINE",
    .textP "CETAT"]

def examplePieces2 : List Piece := [
    .tag "/ORIGINE",
    .textP "\n",
    .tag "URL",
    .textP "texte/juri/admin/CETA/TEXT/00/00/49/31/48/CETATEXT000049314894.xml",
    .tag "/URL",
    .textP "\n",
    .tag "NATURE",
    .textP "Texte",
    .tag "/NATURE",
    .textP "\n",
    .tag "/META_COMMUN",
    .textP "\n",
    .tag "META_SPEC",
    .textP "\n",
    .tag "META_JURI",
    .textP "\n",
    .tag "TITRE",
    .textP "Conseil d'État, 2ème - 7ème chambres réunies, 21/03/2024, 490536",
    .tag "/TITRE"]

def examplePieces3 : List Piece := [
    .textP "\n",
    .tag "DATE_DEC",
    .textP "2024-03-21",
    .tag "/DATE_DEC",
    .textP "\n",
    .tag "JURIDICTION",
    .textP "Conseil d'État",
    .tag "/JURIDICTION",
    .textP "\n",
    .tag "NUMERO",
    .textP "490536",
    .tag "/NUMERO",
    .textP "\n",
    .tag "SOLUTION/",
    .textP "\n",
    .tag "/META_JURI",
    .textP "\n",
    .tag "META_JURI_ADMIN",
    .textP "\n\n"]

def examplePieces4 : List Piece := [
    .tag "FORMATION",
    .textP "2ème - 7ème chambres réunies",
    .tag "/FORMATION",
    .textP "\n",
    .tag "TYPE_REC",
    .textP "Autres",
    .tag "/TYPE_REC",
    .textP "\n",
    .tag "PUBLI_RECUEIL",
    .textP "B",
    .tag "/PUBLI_RECUEIL",
    .textP "\n",
    .tag "DEMANDEUR/",
    .textP "\n",
    .tag "DEFENDEUR/",
    .textP "\n",
    .tag "PRESIDENT/",
    .textP "\n",
    .tag "AVOCATS"]

def examplePieces5 : List Piece := [
    .textP "SCP BAUER-VIOLAS - FESCHOTTE-DESBOIS - SEBAGH ; SCP MARLANGE, DE LA BURGADE ; SCP SPINOSI",
    .tag "/AVOCATS",
    .textP "\n",
    .tag "RAPPORTEUR",
    .textP "M. Alexandre Trémolière",
    .tag "/RAPPORTEUR",
    .textP "\n",
    .tag "COMMISSAIRE_GVT",
    .textP "M. Clément Malverti",
    .tag "/COMMISSAIRE_GVT",
    .textP "\n",
    .tag "ECLI",
    .textP "ECLI:FR:CECHR:2024:490536.20240321",
    .tag "/ECLI",
    .textP "\n",
    .tag "/META_JURI_ADMIN",
    .textP "\n",
    .tag "/META_SPEC",
    .textP "\n"]

def examplePieces6 : List Piece := [
    .tag "/META",
    .textP "\n",
    .tag "TEXTE",
    .textP "\n",
    .tag "BLOC_TEXTUEL",
    .textP "\n",
    .tag "CONTENU",
    .textP longText1,
    .tag "br/",
    .textP "\n",
    .tag "br/",
    .textP "\n",
    .tag "/CONTENU",
    .textP "\n",
    .tag "/BLOC_TEXTUEL",
    .textP "\n",
    .tag "SOMMAIRE",
    .textP "\n",
    .tag "SCT ID=\"8A\" TYPE=\"PRINCIPAL\""]

def examplePieces7 : List Piece := [
    .textP longText2,
    .tag "/SCT",
    .textP "\n",
    .tag "SCT ID=\"8B\" TYPE=\"PRINCIPAL\"",
    .textP longText3,
    .tag "/SCT",
    .textP "\n",
    .tag "SCT ID=\"8C\" TYPE=\"PRINCIPAL\"",
    .textP longText4,
    .tag "/SCT",
    .textP "\n",
    .tag "ANA ID=\"9A\"",
    .textP longText5,
    .tag "/ANA",
    .textP "\n",
    .tag "ANA ID=\"9B\"",
    .textP longText6,
    .tag "/ANA",
    .textP "\n"]

def examplePieces8 : List Piece := [
    .tag "ANA ID=\"9C\"",
    .textP longText7,
    .tag "/ANA",
    .textP "\n",
    .tag "/SOMMAIRE",
    .textP "\n\n",
    .tag "CITATION_JP",
    .textP "\n",
    .tag "CONTENU",
    .textP "[RJ1] Comp., avant l’intervention du décret n° 2018-1123 du 10 décembre 2018, CE, 20 juin 2012, M. Richard et autres, n° 344646, T. pp. 889-1023.",
    .tag "/CONTENU",
    .textP "\n",
    .tag "/CITATION_JP",
    .textP "\n",
    .tag "/TEXTE",
    .textP "\n",
    .tag "LIENS/",
    .textP "\n",
    .tag "/TEXTE_JURI_ADMIN"]

/-- The canonical fixture XML (the `EXAMPLE_XML` test constant of
src/dumps/extractor.rs), given verbatim as its alternation of markup
tags and text runs (in consecutive groups); `renderPieces` concatenates
them back (a `tag` piece renders as `<`, its content, `>`). -/
def EXAMPLE_PIECES : List Piece :=
  examplePieces1 ++ examplePieces2 ++ examplePieces3 ++ examplePieces4 ++ examplePieces5 ++ examplePieces6 ++ examplePieces7 ++ examplePieces8

def EXAMPLE_XML : String := renderPieces EXAMPLE_PIECES

set_option maxHeartbeats 2000000 in
theorem exPiecesWf : wfPieces EXAMPLE_PIECES :=
  ⟨by decide, by decide, ⟨by decide, ⟨by decide, by decide, ⟨by decide, ⟨by decide, by decide, ⟨by decide, ⟨by decide, by decide, ⟨by decide, ⟨by decide, by decide, ⟨by decide, ⟨by decide, by decide, ⟨by decide, ⟨by decide, by decide, ⟨by decide, ⟨by decide, by decide, ⟨by decide, ⟨by decide, by decide, ⟨by decide, ⟨by decide, by decide, ⟨by decide, ⟨by decide, by decide, ⟨by decide, ⟨by decide, by decide, ⟨by decide, ⟨by decide, by decide, ⟨by decide, ⟨by decide, by decide, ⟨by decide, ⟨by decide, by decide, ⟨by decide, ⟨by decide, by decide, ⟨by decide, ⟨by decide, by decide, ⟨by decide, ⟨by decide, by decide, ⟨by decide, ⟨by decide, by decide, ⟨by decide, ⟨by decide, by decide, ⟨by decide, ⟨by decide, by decide, ⟨by decide, ⟨by decide, by decide, ⟨by decide, ⟨by decide, by decide, ⟨by decide, ⟨by decide, by decide, ⟨by decide, ⟨by decide, by decide, ⟨by decide, ⟨by decide, by decide, ⟨by decide, ⟨by decide, by decide, ⟨by decide, ⟨by decide, by decide, ⟨by decide, ⟨by decide, by decide, ⟨by decide, ⟨by decide, by decide, ⟨by decide, ⟨by decide, by decide, ⟨by decide, ⟨by decide, by decide, ⟨by decide, ⟨by decide, by decide, ⟨by decide, ⟨by decide, by decide, ⟨by decide, ⟨by decide, by decide, ⟨by decide, ⟨by decide, by decide, ⟨by decide, ⟨by decide, by decide, ⟨by decide, ⟨by decide, by decide, ⟨by decide, ⟨by decide, by decide, ⟨by decide, ⟨by decide, by decide, ⟨by decide, ⟨by decide, by decide, ⟨by decide, ⟨by decide, by decide, ⟨by decide, ⟨by decide, by decide, ⟨by decide, ⟨by decide, by decide, ⟨by decide, ⟨by decide, by decide, ⟨by decide, ⟨by decide, by decide, ⟨by decide, ⟨by decide, by decide, ⟨by decide, ⟨by decide, by decide, ⟨by decide, ⟨by decide, by decide, ⟨by decide, ⟨by decide, by decide, ⟨by decide, ⟨by decide, by decide, ⟨by decide, ⟨longText1_ne_nil, longText1_no_lt, ⟨by decide, ⟨by decide, by decide, ⟨by decide, ⟨by decide, by decide, ⟨by decide, ⟨by decide, by decide, ⟨by decide, ⟨by decide, by decide, ⟨by decide, ⟨by decide, by decide, ⟨by decide, ⟨longText2_ne_nil, longText2_no_lt, ⟨by decide, ⟨by decide, by decide, ⟨by decide, ⟨longText3_ne_nil, longText3_no_lt, ⟨by decide, ⟨by decide, by decide, ⟨by decide, ⟨longText4_ne_nil, longText4_no_lt, ⟨by decide, ⟨by decide, by decide, ⟨by decide, ⟨longText5_ne_nil, longText5_no_lt, ⟨by decide, ⟨by decide, by decide, ⟨by decide, ⟨longText6_ne_nil, longText6_no_lt, ⟨by decide, ⟨by decide, by decide, ⟨by decide, ⟨longText7_ne_nil, longText7_no_lt, ⟨by decide, ⟨by decide, by decide, ⟨by decide, ⟨by decide, by decide, ⟨by decide, ⟨by decide, by decide, ⟨by decide, ⟨by decide, by decide, ⟨by decide, ⟨by decide, by decide, ⟨by decide, ⟨by decide, by decide, ⟨by decide, ⟨by decide, by decide, ⟨by decide, ⟨by decide, by decide, ⟨by decide, trivial⟩⟩⟩⟩⟩⟩⟩⟩⟩⟩⟩⟩⟩⟩⟩⟩⟩⟩⟩⟩⟩⟩⟩⟩⟩⟩⟩⟩⟩⟩⟩⟩⟩⟩⟩⟩⟩⟩⟩⟩⟩⟩⟩⟩⟩⟩⟩⟩⟩⟩⟩⟩⟩⟩⟩⟩⟩⟩⟩⟩⟩⟩⟩⟩⟩⟩⟩⟩⟩⟩⟩⟩⟩⟩⟩⟩⟩⟩⟩⟩⟩⟩⟩⟩⟩⟩⟩⟩⟩⟩⟩⟩⟩⟩⟩⟩⟩⟩⟩⟩⟩⟩⟩⟩⟩⟩⟩⟩⟩⟩⟩⟩⟩⟩⟩⟩⟩⟩⟩⟩⟩⟩⟩⟩⟩⟩⟩⟩⟩⟩⟩⟩⟩⟩⟩⟩⟩⟩⟩⟩⟩⟩⟩⟩⟩⟩⟩⟩⟩⟩⟩⟩

theorem renderPieces_length_ge (pieces : List Piece) :
    wfPieces pieces → pieces.length ≤ (renderPieces pieces).data.length := by
  induction pieces with
  | nil => simp [renderPieces]
  | cons p rest ih =>
    intro hwf
    cases p with
    | tag inner =>
      have h2 := ih hwf.2
      simp only [renderPieces, renderPiece, String.data_append, List.length_append,
        List.length_cons]
      simp only [List.length_cons] at h2 ⊢
      omega
    | textP s =>
      have hlen : 1 ≤ s.data.length := by
        rcases rest with _ | ⟨p2, rest2⟩
        · rcases hsd : s.data with _ | ⟨c, cs⟩
          · exact absurd hsd hwf.1
          · simp
        · cases p2 with
          | textP _ => simp [wfPieces] at hwf
          | tag _ =>
            rcases hsd : s.data with _ | ⟨c, cs⟩
            · exact absurd hsd hwf.1
            · simp
      have h2 : rest.length ≤ (renderPieces rest).data.length := by
        rcases rest with _ | ⟨p2, rest2⟩
        · simp
        · cases p2 with
          | textP _ => simp [wfPieces] at hwf
          | tag _ => exact ih hwf.2.2
      simp only [renderPieces, renderPiece, String.data_append, List.length_append,
        List.length_cons]
      omega

theorem lexXml_EXAMPLE :
    lexXml EXAMPLE_XML = EXAMPLE_PIECES.map pieceToEvent := by
  unfold lexXml EXAMPLE_XML
  exact lexXmlAux_render _ _ exPiecesWf (renderPieces_length_ge _ exPiecesWf)

/-- The record the repository's parser extracts from the canonical
fixture. -/
def EXAMPLE_PARSED : PreDilaText :=
  reader_to_pre_dila (lexXml EXAMPLE_XML)

set_option maxRecDepth 10000 in
example : (renderPieces EXAMPLE_PIECES).data.take 39
    = "\n<?xml version=\"1.0\" encoding=\"UTF-8\"?>".data := by decide

set_option maxRecDepth 100000 in
set_option maxHeartbeats 4000000 in
/-- C5: parsing the canonical fixture XML yields the claimed field
values: the declared identifiers, origin, nature, title, decision
date, jurisdiction, juri code, rapporteur, government commissioner and
ECLI code, with requester and president absent. -/
theorem xml_fixture_round_trip :
    EXAMPLE_PARSED.id = "CETATEXT000049314894"
    ∧ EXAMPLE_PARSED.oldid = "JG_L_2024_03_000000490536"
    ∧ EXAMPLE_PARSED.origin = "CETAT"
    ∧ EXAMPLE_PARSED.nature = "Texte"
    ∧ EXAMPLE_PARSED.title
        = some "Conseil d'État, 2ème - 7ème chambres réunies, 21/03/2024, 490536"
    ∧ EXAMPLE_PARSED.decision_date = some "2024-03-21"
    ∧ EXAMPLE_PARSED.jurisdiction = some "Conseil d'État"
    ∧ EXAMPLE_PARSED.juri_code = some "490536"
    ∧ EXAMPLE_PARSED.rapporteur = some "M. Alexandre Trémolière"
    ∧ EXAMPLE_PARSED.government_commissioner = some "M. Clément Malverti"
    ∧ EXAMPLE_PARSED.ecli_code = some "ECLI:FR:CECHR:2024:490536.20240321"
    ∧ EXAMPLE_PARSED.requester = none
    ∧ EXAMPLE_PARSED.president = none := by
  have h : EXAMPLE_PARSED = reader_to_pre_dila (EXAMPLE_PIECES.map pieceToEvent) := by
    unfold EXAMPLE_PARSED
    rw [lexXml_EXAMPLE]
  rw [h]
  decide

/-- One attempted match of the year regex
`(?<year>\d*)-\d*-\d*</DATE` at the head of the input: the digit stars
are deterministic (digits never overlap `-` or `<`); returns the
`year` capture and the input after the match. -/
def yearMatchAt (s : List Char) : Option (List Char × List Char) :=
  let y := s.takeWhile Char.isDigit
  match s.drop y.length with
  | '-' :: s2 =>
    let d2 := s2.takeWhile Char.isDigit
    match s2.drop d2.length with
    | '-' :: s4 =>
      let d3 := s4.takeWhile Char.isDigit
      match s4.drop d3.length with
      | '<' :: '/' :: 'D' :: 'A' :: 'T' :: 'E' :: rest => some (y, rest)
      | _ => none
    | _ => none
  | _ => none

/-- Rust `str::parse::<u64>` on a capture made of digits: fails on the empty
string (the `\d*` capture may be empty) or on 64-bit overflow. -/
def parseU64 (l : List Char) : Option Nat :=
  if l.isEmpty then none
  else if digitsToNat l < 2 ^ 64 then some (digitsToNat l) else none

/-- The `captures_iter ... filter_map(parse) ... take(1)` of
`get_year_juri`: successive non-overlapping matches, keeping the first
whose year capture parses.  A match consumes at least eight characters,
so fuel equal to the input length suffices. -/
def scanYear : Nat → List Char → Option Nat
  | 0, _ => none
  | _ + 1, [] => none
  | fuel + 1, c :: rest =>
    match yearMatchAt (c :: rest) with
    | some (y, after) =>
      match parseU64 y with
      | some n => some n
      | none => scanYear fuel after
    | none => scanYear fuel rest

/-- Rust `get_year_juri` (src/dumps/tarballs.rs). -/
def get_year_juri (doc : String) : RunResult Nat :=
  match scanYear doc.data.length doc.data with
  | some y => .ok y
  | none => .err "Cannot find date in juri document"

namespace Tarballs

/-- Rust `parse_file` (src/dumps/tarballs.rs): read the file, extract the
year with the regex, and store the path relative to the indexed
directory. -/
def parse_file (fs : FS) (dir : String) (file : String) : RunResult FondXMLFile :=
  match fs.lookup file with
  | none => .err "Could not open file"
  | some body =>
    match get_year_juri body with
    | .ok y =>
      if (dir ++ "/").data.isPrefixOf file.data then
        .ok ⟨String.mk (file.data.drop (dir ++ "/").data.length), body, y⟩
      else .err "Failed to strip prefix"
    | _ => .err "Could not get year"

end Tarballs

/-- The files `index_files_in_dir` visits: the files under `dir` whose
extension is `xml`. -/
def xmlFilesUnder (fs : FS) (dir : String) : List String :=
  (fs.map Prod.fst).filter
    (fun p => (dir ++ "/").data.isPrefixOf p.data && pathExtension p == "xml")

/-- The per-file loop of `index_files_in_dir` (src/dumps/tarballs.rs):
a file whose parse (or add) fails is logged at warn and skipped, the
loop continues with the rest. -/
def indexLoop (fs : FS) (dir : String) : List String → List FondXMLFile
  | [] => []
  | f :: rest =>
    match Tarballs.parse_file fs dir f with
    | .ok doc => doc :: indexLoop fs dir rest
    | _ => indexLoop fs dir rest

/-- Rust `index_files_in_dir` (src/dumps/tarballs.rs): indexes every
parseable `.xml` file under `dir` and commits; per-file failures never
escape the loop (the final commit, fatal on failure, is modelled as
succeeding). -/
def index_files_in_dir (fs : FS) (dir : String) : RunResult (List FondXMLFile) :=
  .ok (indexLoop fs dir (xmlFilesUnder fs dir))

namespace Dilarxiv

/-- The per-line loop of the persistent-mode `result_file_to_csv`
(src/dilarxiv.rs): each line is a path; `count_tags_in_file` and
`parse_file` (src/dumps/extractor.rs) both panic when it does not
exist, and nothing catches the panic. -/
def csvLoop (fs : FS) : List String → RunResult (List PreDilaText)
  | [] => .ok []
  | line :: rest =>
    match Extractor.parse_file fs line with
    | .ok r => (csvLoop fs rest).map (fun l => r :: l)
    | .err m => .err m
    | .panicked m => .panicked m

/-- Rust `result_file_to_csv` (src/dilarxiv.rs): reads the result list with
`BufRead::lines` (newlines stripped) and serializes one CSV row per
parsed record. -/
def result_file_to_csv (fs : FS) (resultContent : String) :
    RunResult (List PreDilaText) :=
  csvLoop fs ((linesList resultContent.data).map String.mk)

end Dilarxiv

theorem indexLoop_eq_filterMap (fs : FS) (dir : String) (files : List String) :
    indexLoop fs dir files
      = files.filterMap (fun f =>
          match Tarballs.parse_file fs dir f with
          | .ok doc => some doc
          | _ => none) := by
  induction files with
  | nil => rfl
  | cons f rest ih =>
    cases h : Tarballs.parse_file fs dir f <;>
      simp [indexLoop, List.filterMap_cons, h, ih]

/-- C8 (counterexample): converting a result list to CSV does not skip
a failing file: with a result list naming a missing file first and a
parseable file second, the whole conversion panics (inside
`parse_file`) and the remaining file is never processed, instead of
the claimed warn-and-skip. -/
theorem csv_conversion_panics_on_missing_file :
    Dilarxiv.result_file_to_csv [("good.xml", "<ID>x</ID>")]
        "missing.xml\ngood.xml"
      = .panicked "File does not exist" := by decide

/-- C8 (amended): per-unit recoverability holds for the indexing
operation: every file whose parse fails is skipped and the operation
returns normally with exactly the parseable files indexed.  The
result-list-to-CSV conversion, by contrast, panics on a missing file
(and on a wrong extension), aborting the whole conversion. -/
theorem xml_parse_recoverability (fs : FS) (dir : String) :
    index_files_in_dir fs dir
      = .ok ((xmlFilesUnder fs dir).filterMap (fun f =>
          match Tarballs.parse_file fs dir f with
          | .ok doc => some doc
          | _ => none))
    ∧ (∀ path, fs.lookup path = none →
        Extractor.parse_file fs path = .panicked "File does not exist") := by
  constructor
  · rw [index_files_in_dir, indexLoop_eq_filterMap]
  · intro path h
    simp [Extractor.parse_file, h]

/-- Witness for `xml_parse_recoverability`: a directory with one
parseable and one unparseable file indexes exactly the parseable one,
and a missing path panics the extractor parser. -/
theorem xml_parse_recoverability_witness :
    index_files_in_dir
        [("extracted/a.xml", "<DATE_JURI>2023-01-01</DATE_JURI>"),
          ("extracted/bad.xml", "no year here")] "extracted"
      = .ok [⟨"a.xml", "<DATE_JURI>2023-01-01</DATE_JURI>", 2023⟩]
    ∧ Extractor.parse_file
        [("extracted/a.xml", "<DATE_JURI>2023-01-01</DATE_JURI>"),
          ("extracted/bad.xml", "no year here")] "missing.xml"
      = .panicked "File does not exist" := by
  have h := xml_parse_recoverability
    [("extracted/a.xml", "<DATE_JURI>2023-01-01</DATE_JURI>"),
      ("extracted/bad.xml", "no year here")] "extracted"
  refine ⟨?_, h.2 "missing.xml" (by decide)⟩
  rw [h.1]
  decide

/-- Model of `BufRead::read_line` repeated to EOF: the returned chunks
keep their trailing `'\n'` (only the final chunk may lack one). -/
def readLinesKeepNl : List Char → List (List Char)
  | [] => []
  | c :: rest =>
    if c = '\n' then ['\n'] :: readLinesKeepNl rest
    else
      match readLinesKeepNl rest with
      | [] => [[c]]
      | l :: ls => (c :: l) :: ls

namespace Oneshot

/-- The dispatcher of the one-shot `result_file_to_csv`
(src/dilarxiv-oneshot.rs): each `read_line` chunk — trailing newline
included, nothing trims it — is joined under `edir` and sent to a
parser thread. -/
def dispatchedPaths (edir : String) (resultContent : String) : List String :=
  (readLinesKeepNl resultContent.data).map (fun l => joinPath edir (String.mk l))

/-- The round-robin thread assignment (`i % parsers.len()`). -/
def rrDispatch (numThreads : Nat) (paths : List String) : List (Nat × String) :=
  paths.enum.map (fun pr => (pr.1 % numThreads, pr.2))

/-- The parser threads' work followed by the writer thread: each
dispatched path is parsed with `Extractor.parse_file` (which panics on
a nonexistent path) and the record is sent to the CSV writer; a parser
panic makes the joining `expect` panic too, so it aborts the stage.
Rows can interleave across the five parser threads; only their set is
determined, which suffices here. -/
def csvRows (fs : FS) : List String → RunResult (List PreDilaText)
  | [] => .ok []
  | p :: rest =>
    match Extractor.parse_file fs p with
    | .ok r => (csvRows fs rest).map (fun l => r :: l)
    | .err m => .err m
    | .panicked m => .panicked m

set_option linter.unusedVariables false in
/-- Rust `result_file_to_csv` (src/dilarxiv-oneshot.rs): the result file is
opened with `read(true).append(false).write(true).create(true)
.truncate(true)` — the `truncate(true)` erases the input before the
`BufReader` reads it — then the (now empty) file's lines are
dispatched and the rows written. -/
def result_file_to_csv (fs : FS) (edir : String) (resultFileContent : String) :
    RunResult (List PreDilaText) :=
  let truncated : String := ""
  csvRows fs (dispatchedPaths edir truncated)

end Oneshot

/-- C1 at the failing input: with `results.txt` holding the single line
`doc.xml` and `results/doc.xml` present, the one-shot CSV stage
truncates its own input on open and emits zero data rows (the claim
demands exactly one); moreover even the dispatch path is wrong — the
untrimmed `read_line` chunk makes it `results/doc.xml\n`, on which
`parse_file` panics. -/
theorem oneshot_csv_zero_rows :
    Oneshot.result_file_to_csv [("results/doc.xml", "<ID>x</ID>")] "results"
        "doc.xml\n"
      = .ok []
    ∧ Oneshot.dispatchedPaths "results" "doc.xml\n" = ["results/doc.xml\n"]
    ∧ Extractor.parse_file [("results/doc.xml", "<ID>x</ID>")]
        "results/doc.xml\n"
      = .panicked "File does not exist" := by
  refine ⟨rfl, by decide, by decide⟩

/-- The tantivy writer/index pair, as far as the one-shot loop drives
it: documents added since the last commit, the committed set, and a
pending `delete_all_documents`. -/
structure IndexState where
  committed : List FondXMLFile
  added : List FondXMLFile
  deleteAllPending : Bool
deriving DecidableEq, Repr

def IndexState.addDocs (st : IndexState) (docs : List FondXMLFile) : IndexState :=
  { st with added := st.added ++ docs }

/-- Rust `commit`: publishes the added documents; a pending delete-all drops
the previously committed ones. -/
def IndexState.commit (st : IndexState) : IndexState :=
  { committed := (if st.deleteAllPending then [] else st.committed) ++ st.added,
    added := [],
    deleteAllPending := false }

/-- Rust `delete_all_documents`: takes effect at the next commit. -/
def IndexState.delete_all_documents (st : IndexState) : IndexState :=
  { st with deleteAllPending := true }

/-- The one-shot orchestrator's disk-and-index state: the three
directories, the durable and temporary result files, and the in-memory
index. -/
structure OneShotState where
  tarballsDir : FS
  extractedDir : FS
  resultsDir : FS
  resultsTxt : String
  resultTmp : Option String
  index : IndexState

set_option linter.unusedVariables false in
/-- One iteration of the chunk loop of `main`
(src/dilarxiv-oneshot.rs), steps in source order: download the chunk
into `tarballs/`, extract into `extracted/`, index the `.xml` files
(`index_files_in_dir` commits, then the loop commits again), search
into `results_tmp.txt` (created, append), append it to `results.txt`,
move each listed file from `extracted/` to `results/`, remove and
recreate `tarballs/` and `extracted/`, `delete_all_documents` then
`commit`, and remove `results_tmp.txt`.  The downloaded and extracted
contents and the query's match predicate are parameters (network and
archives are external). -/
def processChunk (st : OneShotState) (downloaded extracted : FS)
    (q : FondXMLFile → Bool) : OneShotState :=
  let tarballs1 := st.tarballsDir ++ downloaded
  let extracted1 := st.extractedDir ++ extracted
  let docs := indexLoop extracted1 "extracted" (xmlFilesUnder extracted1 "extracted")
  let idx1 := (st.index.addDocs docs).commit
  let idx2 := idx1.commit
  let tmp1 := appendPathLines (st.resultTmp.getD "") (matchingPaths idx2.committed q)
  let txt1 := st.resultsTxt ++ tmp1
  let moved := (linesList tmp1.data).map String.mk
  let results1 := st.resultsDir ++ extracted1.filter (fun e => moved.contains e.1)
  { tarballsDir := [],
    extractedDir := [],
    resultsDir := results1,
    resultsTxt := txt1,
    resultTmp := none,
    index := idx2.delete_all_documents.commit }

/-- C9: after each chunk of the one-shot loop, the `tarballs/` and
`extracted/` directories are empty (removed and recreated), the
temporary results file is gone, and the index has been cleared by
`delete_all_documents` followed by `commit` (nothing committed, nothing
pending). -/
theorem oneshot_chunk_invariant (st : OneShotState) (downloaded extracted : FS)
    (q : FondXMLFile → Bool) :
    (processChunk st downloaded extracted q).tarballsDir = []
    ∧ (processChunk st downloaded extracted q).extractedDir = []
    ∧ (processChunk st downloaded extracted q).resultTmp = none
    ∧ (processChunk st downloaded extracted q).index.committed = []
    ∧ (processChunk st downloaded extracted q).index.added = [] := by
  refine ⟨rfl, rfl, rfl, ?_, rfl⟩
  simp [processChunk, IndexState.commit, IndexState.delete_all_documents,
    IndexState.addDocs]
